import Mathlib

/-!
# Verification of the tmpo persistent store and config resolver

Shallow embedding of the storage layer (`internal/storage/db.go`,
`internal/storage/models.go`, `internal/storage/migrations.go`), the
project config resolver (`internal/project/detect.go`,
`internal/settings/projects.go`) and the entry domain model of the
tmpo time-tracking CLI.

Modelling conventions:
* A Go `time.Time` is a point in time (nanoseconds since the epoch, an
  integer) together with its zone component (`Location()`): either the
  distinguished UTC location or some other location carrying an offset.
  `t.UTC()` keeps the instant and sets the location to UTC.
* SQLite tables are lists of row records; `DATETIME` ordering is
  ordering of instants; the `AUTOINCREMENT` id counter is carried in
  the store state.
* Go `(value, error)` results become `Except String value`;
  `sql.ErrNoRows` handled as "absent" becomes `Except.ok none`.
* Operations that mutate the store return the new store next to the
  result; a SQL transaction buffers its writes and publishes them only
  on commit, so a failed step leaves the incoming store value as the
  observable state (rollback).
* Go `float64` rates and hour values are given their real-valued
  semantics as rationals.
-/

namespace Tmpo

/-- The zone component (`Location()`) of a Go `time.Time`: either the
distinguished UTC location or a non-UTC location with its offset in
seconds. -/
inductive Loc where
  | utc : Loc
  | fixedZone (offsetSeconds : Int) : Loc
deriving DecidableEq, Repr

/-- A Go `time.Time`: an instant (nanoseconds since the epoch) plus the
zone component used for display. -/
structure GoTime where
  instant : Int
  loc : Loc
deriving DecidableEq, Repr

/-- `time.Time.UTC()`: same instant, zone component set to UTC. -/
def GoTime.toUTC (t : GoTime) : GoTime := ⟨t.instant, Loc.utc⟩

/-- A row of the `time_entries` table / the `TimeEntry` model
(`internal/storage/models.go`). -/
structure TimeEntry where
  ID : Int
  ProjectName : String
  StartTime : GoTime
  EndTime : Option GoTime
  Description : String
  HourlyRate : Option ℚ
  MilestoneName : Option String
deriving DecidableEq, Repr

/-- A row of the `milestones` table / the `Milestone` model. -/
structure Milestone where
  ID : Int
  ProjectName : String
  Name : String
  StartTime : GoTime
  EndTime : Option GoTime
deriving DecidableEq, Repr

/-- A row of the `settings` table (the migration ledger):
`key TEXT PRIMARY KEY, value TEXT, updated_at DATETIME`. -/
structure SettingRow where
  key : String
  value : String
  updatedAt : GoTime
deriving DecidableEq, Repr

/-- The persistent store: the three tables plus the `AUTOINCREMENT`
counter for the milestones table. -/
structure DB where
  entries : List TimeEntry
  milestones : List Milestone
  settings : List SettingRow
  nextMilestoneId : Int
deriving DecidableEq, Repr

/-- Migration key `Migration001_UTCTimestamps` from
`internal/storage/migrations.go`. -/
def Migration001_UTCTimestamps : String := "001_utc_timestamps"

/-- `hasMigrationRun`: `SELECT value FROM settings WHERE key = ?`;
`sql.ErrNoRows` means `false`; otherwise compare the value against
`"completed"`. (`key` is the primary key, so the first match is the
row.) -/
def hasMigrationRun (migrationKey : String) (db : DB) : Bool :=
  match db.settings.find? (fun r => r.key == migrationKey) with
  | none => false
  | some r => r.value == "completed"

/-- `INSERT OR REPLACE INTO settings (key, value, updated_at)`:
replace the row with this key if present, otherwise append a new row. -/
def settingsUpsert (s : List SettingRow) (key value : String) (now : GoTime) :
    List SettingRow :=
  if s.any (fun r => r.key == key) then
    s.map (fun r => if r.key == key then ⟨key, value, now⟩ else r)
  else
    s ++ [⟨key, value, now⟩]

/-- The conversion applied to one scanned timestamp inside the
migration: `if t.Location() != time.UTC { t = t.UTC() }`. -/
def normalizeTime (t : GoTime) : GoTime :=
  if t.loc ≠ Loc.utc then t.toUTC else t

/-- The `entryUpdate` / `milestoneUpdate` record accumulated by the
migration scans: id plus the (possibly converted) timestamps. -/
structure TimeUpdate where
  id : Int
  startTime : GoTime
  endTime : Option GoTime
deriving DecidableEq, Repr

/-- `needsUpdate` for a scanned `(start_time, end_time)` pair: true iff
the start or a non-null end has a non-UTC zone component. -/
def timesNeedUpdate (start : GoTime) (endT : Option GoTime) : Bool :=
  (start.loc ≠ Loc.utc : Bool) ||
    (match endT with
     | some t => (t.loc ≠ Loc.utc : Bool)
     | none => false)

/-- The scan loop of `migrateTimeEntriesTableToUTC` /
`migrateMilestonesTableToUTC`: collect an update record (with converted
timestamps) for every row whose timestamps need conversion. -/
def collectTimeUpdates (rows : List (Int × GoTime × Option GoTime)) :
    List TimeUpdate :=
  rows.filterMap (fun r =>
    if timesNeedUpdate r.2.1 r.2.2 then
      some ⟨r.1, normalizeTime r.2.1, r.2.2.map normalizeTime⟩
    else none)

/-- `UPDATE time_entries SET start_time = ?, end_time = ? WHERE id = ?`
for one accumulated update. -/
def applyEntryUpdate (rows : List TimeEntry) (u : TimeUpdate) : List TimeEntry :=
  rows.map (fun r =>
    if r.ID = u.id then { r with StartTime := u.startTime, EndTime := u.endTime }
    else r)

/-- `UPDATE milestones SET start_time = ?, end_time = ? WHERE id = ?`
for one accumulated update. -/
def applyMilestoneUpdate (rows : List Milestone) (u : TimeUpdate) : List Milestone :=
  rows.map (fun r =>
    if r.ID = u.id then { r with StartTime := u.startTime, EndTime := u.endTime }
    else r)

/-- `migrateTimeEntriesTableToUTC`: scan all rows, collect the rows
needing conversion, then apply the updates in order. -/
def migrateTimeEntriesTableToUTC (rows : List TimeEntry) : List TimeEntry :=
  (collectTimeUpdates (rows.map (fun r => (r.ID, r.StartTime, r.EndTime)))).foldl
    applyEntryUpdate rows

/-- `migrateMilestonesTableToUTC`: same scan/update pass over the
milestones table. -/
def migrateMilestonesTableToUTC (rows : List Milestone) : List Milestone :=
  (collectTimeUpdates (rows.map (fun r => (r.ID, r.StartTime, r.EndTime)))).foldl
    applyMilestoneUpdate rows

/-- Which steps of the migration transaction succeed.  Each flag stands
for one of the fallible calls of `migrateTimestampsToUTC` in program
order: `d.db.Begin()`, `migrateTimeEntriesTableToUTC(tx)`,
`migrateMilestonesTableToUTC(tx)`, the marker `tx.Exec`, and
`tx.Commit()`. -/
structure TxOracle where
  beginOk : Bool
  entriesOk : Bool
  milestonesOk : Bool
  markOk : Bool
  commitOk : Bool
deriving DecidableEq, Repr

/-- The oracle under which every database call succeeds. -/
def TxOracle.allOk : TxOracle := ⟨true, true, true, true, true⟩

/-- The store produced by a successful full run of the migration
transaction: both tables rewritten and the completion marker upserted,
all published together by the commit. -/
def migratedDB (now : GoTime) (db : DB) : DB :=
  { db with
    entries := migrateTimeEntriesTableToUTC db.entries,
    milestones := migrateMilestonesTableToUTC db.milestones,
    settings := settingsUpsert db.settings Migration001_UTCTimestamps "completed" now }

/-- `migrateTimestampsToUTC`: check the ledger and return immediately
when the marker is present; otherwise run the transactional rewrite of
both tables plus the marker write.  The transaction buffers its writes
and only the commit publishes them, so every failing step (modelled by
the oracle) observes a rollback: the error is returned and the store is
unchanged. -/
def migrateTimestampsToUTCWith (o : TxOracle) (now : GoTime) (db : DB) :
    Except String Unit × DB :=
  if hasMigrationRun Migration001_UTCTimestamps db then
    (Except.ok (), db)
  else if !o.beginOk then
    (Except.error "failed to begin transaction", db)
  else if !o.entriesOk then
    (Except.error "failed to migrate time_entries", db)
  else if !o.milestonesOk then
    (Except.error "failed to migrate milestones", db)
  else if !o.markOk then
    (Except.error "failed to mark migration complete", db)
  else if !o.commitOk then
    (Except.error "failed to commit migration transaction", db)
  else
    (Except.ok (), migratedDB now db)

/-- `runMigrations`: runs the single registered migration, wrapping its
error. -/
def runMigrationsWith (o : TxOracle) (now : GoTime) (db : DB) :
    Except String Unit × DB :=
  match migrateTimestampsToUTCWith o now db with
  | (Except.error e, db') => (Except.error ("timestamp UTC migration failed: " ++ e), db')
  | (Except.ok (), db') => (Except.ok (), db')

/-! ## Store queries (`internal/storage/db.go`) -/

/-- `ORDER BY start_time DESC` comparator on entry rows (descending by
the stored instant). -/
def entryStartDesc (a b : TimeEntry) : Bool :=
  b.StartTime.instant ≤ a.StartTime.instant

/-- `ORDER BY start_time DESC` comparator on milestone rows. -/
def milestoneStartDesc (a b : Milestone) : Bool :=
  b.StartTime.instant ≤ a.StartTime.instant

/-- `GetEntry`: `SELECT ... FROM time_entries WHERE id = ?`.  There is
no `sql.ErrNoRows` branch here: a missing row surfaces as the wrapped
driver error. -/
def GetEntry (db : DB) (id : Int) : Except String TimeEntry :=
  match db.entries.find? (fun e => e.ID = id) with
  | some e => Except.ok e
  | none => Except.error "failed to get entry: sql: no rows in result set"

/-- `GetRunningEntry`: `WHERE end_time IS NULL ORDER BY start_time DESC
LIMIT 1`; `sql.ErrNoRows` is returned as absent (`none`), not an
error. -/
def GetRunningEntry (db : DB) : Except String (Option TimeEntry) :=
  Except.ok (((db.entries.filter (fun e => e.EndTime.isNone)).mergeSort
    entryStartDesc).head?)

/-- `GetLastStoppedEntry`: `WHERE end_time IS NOT NULL ORDER BY
start_time DESC LIMIT 1`; absence is `none`, not an error. -/
def GetLastStoppedEntry (db : DB) : Except String (Option TimeEntry) :=
  Except.ok (((db.entries.filter (fun e => e.EndTime.isSome)).mergeSort
    entryStartDesc).head?)

/-- `GetEntries(limit)`: `ORDER BY start_time DESC`, appending
`LIMIT %d` only when `limit > 0`. -/
def GetEntries (db : DB) (limit : Int) : List TimeEntry :=
  let sorted := db.entries.mergeSort entryStartDesc
  if limit > 0 then sorted.take limit.toNat else sorted

/-- `GetMilestone`: by id; `sql.ErrNoRows` is absent, not an error. -/
def GetMilestone (db : DB) (id : Int) : Except String (Option Milestone) :=
  Except.ok (db.milestones.find? (fun m => m.ID = id))

/-- `GetMilestoneByName`: `WHERE project_name = ? AND name = ?`;
`sql.ErrNoRows` is absent, not an error. -/
def GetMilestoneByName (db : DB) (projectName milestoneName : String) :
    Except String (Option Milestone) :=
  Except.ok (db.milestones.find?
    (fun m => m.ProjectName = projectName ∧ m.Name = milestoneName))

/-- `GetActiveMilestoneForProject`: `WHERE project_name = ? AND
end_time IS NULL ORDER BY start_time DESC LIMIT 1`; `sql.ErrNoRows` is
absent, not an error. -/
def GetActiveMilestoneForProject (db : DB) (projectName : String) :
    Except String (Option Milestone) :=
  Except.ok (((db.milestones.filter
    (fun m => m.ProjectName = projectName ∧ m.EndTime.isNone)).mergeSort
      milestoneStartDesc).head?)

/-- `CreateMilestone`: `INSERT INTO milestones (project_name, name,
start_time)`.  The schema (`Initialize`) declares
`UNIQUE(project_name, name)`, so the insert fails on a duplicate pair
and the store is unchanged; on success the fresh `AUTOINCREMENT` id is
used and the inserted row is read back via `GetMilestone`. -/
def CreateMilestone (db : DB) (projectName name : String) (now : GoTime) :
    Except String (Option Milestone) × DB :=
  if db.milestones.any (fun m => m.ProjectName == projectName && m.Name == name) then
    (Except.error
      "failed to create milestone: constraint failed: UNIQUE constraint failed: milestones.project_name, milestones.name",
      db)
  else
    let row : Milestone := ⟨db.nextMilestoneId, projectName, name, now.toUTC, none⟩
    let db' : DB := { db with
      milestones := db.milestones ++ [row],
      nextMilestoneId := db.nextMilestoneId + 1 }
    match GetMilestone db' row.ID with
    | Except.ok m => (Except.ok m, db')
    | Except.error e => (Except.error e, db')

/-! ## Domain model (`internal/storage/models.go`) -/

/-- Nanoseconds per hour: `time.Duration.Hours()` divides the duration
in nanoseconds by this. -/
def nsPerHour : ℚ := 3600000000000

/-- `math.Round`: nearest integer, rounding half away from zero, as a
function on the real (rational) value. -/
def mathRound (x : ℚ) : ℚ :=
  if x < 0 then -(((⌊-x + 1/2⌋ : ℤ) : ℚ)) else ((⌊x + 1/2⌋ : ℤ) : ℚ)

/-- `TimeEntry.Duration()`: `time.Since(start)` (i.e. `now - start`)
for a running entry, `end.Sub(start)` for a completed one, in
nanoseconds.  `now` is the instant of the call. -/
def TimeEntry.Duration (t : TimeEntry) (now : Int) : Int :=
  match t.EndTime with
  | none => now - t.StartTime.instant
  | some e => e.instant - t.StartTime.instant

/-- `TimeEntry.IsRunning()`. -/
def TimeEntry.IsRunning (t : TimeEntry) : Bool :=
  t.EndTime.isNone

/-- `TimeEntry.RoundedHours()`:
`math.Round(t.Duration().Hours()*100) / 100`. -/
def TimeEntry.RoundedHours (t : TimeEntry) (now : Int) : ℚ :=
  mathRound (((t.Duration now : ℚ) / nsPerHour) * 100) / 100

/-! ## Projects registry (`internal/settings/projects.go`) -/

/-- A record of the global projects registry (`GlobalProject`). -/
structure GlobalProject where
  Name : String
  HourlyRate : Option ℚ
  Description : String
  ExportPath : String
deriving DecidableEq, Repr

/-- The global projects registry (`ProjectsRegistry`). -/
structure ProjectsRegistry where
  Projects : List GlobalProject
deriving DecidableEq, Repr

/-- `strings.EqualFold`: case-insensitive string equality (simple case
folding), character by character. -/
def equalFold (a b : String) : Bool :=
  a.data.map Char.toLower == b.data.map Char.toLower

/-- `strings.TrimSpace`: strip leading and trailing whitespace. -/
def trimSpace (s : String) : String :=
  ⟨((s.data.dropWhile Char.isWhitespace).reverse.dropWhile Char.isWhitespace).reverse⟩

/-- `ProjectsRegistry.GetProject`: trim the requested name, reject an
empty name, then return the first case-insensitive match. -/
def ProjectsRegistry.GetProject (pr : ProjectsRegistry) (name : String) :
    Except String GlobalProject :=
  let normalizedName := trimSpace name
  if normalizedName = "" then
    Except.error "project name cannot be empty"
  else
    match pr.Projects.find? (fun p => equalFold p.Name normalizedName) with
    | some p => Except.ok p
    | none =>
      Except.error ("project '" ++ name ++ "' not found in global registry")

/-- `ProjectsRegistry.Exists`: whether `GetProject` succeeds. -/
def ProjectsRegistry.Exists (pr : ProjectsRegistry) (name : String) : Bool :=
  match pr.GetProject name with
  | Except.ok _ => true
  | Except.error _ => false

/-! ## Config resolver (`internal/project/detect.go`)

The resolver reads its sources from the environment:
`settings.LoadProjects()` (the registry file), `settings.FindAndLoad()`
(the per-directory `.tmporc` file) and directory/git detection.  These
environment reads are passed in as values. -/

/-- Modelled from the spec: the per-directory project config record
loaded by `settings.FindAndLoad` (its defining file is not in the
sources; the shape — declared project name, optional hourly rate where
zero/absent means "no rate", description, export path, same shape as a
registry record — comes from §3 "Per-directory project config" and the
fields its callers read). -/
structure ProjectConfig where
  ProjectName : String
  HourlyRate : ℚ
  Description : String
  ExportPath : String
deriving DecidableEq, Repr

/-- `DetectConfiguredProjectWithOverride`: explicit `--project` flag
first (validated against the registry — hard error when absent there),
then the `.tmporc` declared name, then directory-based detection.
`loadProjects` is the result of reading the registry file;
`findAndLoad` is the `.tmporc` record when one was found and parsed;
`detectProject` is the result of git/directory detection. -/
def DetectConfiguredProjectWithOverride (explicitProject : String)
    (loadProjects : Except String ProjectsRegistry)
    (findAndLoad : Option ProjectConfig)
    (detectProject : Except String String) : Except String String :=
  if explicitProject ≠ "" then
    match loadProjects with
    | Except.error e => Except.error ("failed to load projects registry: " ++ e)
    | Except.ok registry =>
      if registry.Exists explicitProject then
        Except.ok explicitProject
      else
        Except.error ("project '" ++ explicitProject ++ "' not found in global registry")
  else
    match findAndLoad with
    | some cfg =>
      if cfg.ProjectName ≠ "" then Except.ok cfg.ProjectName else detectProject
    | none => detectProject

/-- `GetProjectConfig`: global registry first (case-insensitive match
wins outright), then the `.tmporc` record when its declared name equals
the requested name (rate only when `> 0`), otherwise absent rate and
empty path; never an error. -/
def GetProjectConfig (projectName : String)
    (loadProjects : Except String ProjectsRegistry)
    (findAndLoad : Option ProjectConfig) : Option ℚ × String :=
  let fromTmporc : Option ℚ × String :=
    match findAndLoad with
    | some cfg =>
      if cfg.ProjectName = projectName then
        ((if cfg.HourlyRate > 0 then some cfg.HourlyRate else none), cfg.ExportPath)
      else (none, "")
    | none => (none, "")
  match loadProjects with
  | Except.ok registry =>
    if registry.Exists projectName then
      match registry.GetProject projectName with
      | Except.ok project => (project.HourlyRate, project.ExportPath)
      | Except.error _ => fromTmporc
    else fromTmporc
  | Except.error _ => fromTmporc

/-! ## Lemmas about the migration pass -/

/-- What the migration does to a single entry row: both timestamps
converted when either needs it, untouched otherwise. -/
def migrateEntryRow (e : TimeEntry) : TimeEntry :=
  if timesNeedUpdate e.StartTime e.EndTime then
    { e with StartTime := normalizeTime e.StartTime,
             EndTime := e.EndTime.map normalizeTime }
  else e

/-- What the migration does to a single milestone row. -/
def migrateMilestoneRow (m : Milestone) : Milestone :=
  if timesNeedUpdate m.StartTime m.EndTime then
    { m with StartTime := normalizeTime m.StartTime,
             EndTime := m.EndTime.map normalizeTime }
  else m

theorem normalizeTime_eq (t : GoTime) :
    normalizeTime t = ⟨t.instant, Loc.utc⟩ := by
  cases t with
  | mk i l => cases l <;> simp [normalizeTime, GoTime.toUTC]

/-- `timesNeedUpdate` is false exactly when every present timestamp is
already in UTC. -/
theorem timesNeedUpdate_eq_false_iff (start : GoTime) (endT : Option GoTime) :
    timesNeedUpdate start endT = false ↔
      start.loc = Loc.utc ∧ ∀ t, endT = some t → t.loc = Loc.utc := by
  cases endT <;> simp [timesNeedUpdate]

/-- One accumulated update applied to a whole row list, folded over all
updates, acts row-wise. -/
def entryAfterUpdates (r : TimeEntry) (ups : List TimeUpdate) : TimeEntry :=
  ups.foldl (fun r u =>
    if r.ID = u.id then { r with StartTime := u.startTime, EndTime := u.endTime }
    else r) r

def milestoneAfterUpdates (r : Milestone) (ups : List TimeUpdate) : Milestone :=
  ups.foldl (fun r u =>
    if r.ID = u.id then { r with StartTime := u.startTime, EndTime := u.endTime }
    else r) r

theorem foldl_applyEntryUpdate (ups : List TimeUpdate) (rows : List TimeEntry) :
    ups.foldl applyEntryUpdate rows = rows.map (fun r => entryAfterUpdates r ups) := by
  induction ups generalizing rows with
  | nil => simp [entryAfterUpdates]
  | cons u ups ih =>
    simp only [List.foldl_cons, ih, applyEntryUpdate, List.map_map]
    exact List.map_congr_left (fun r _ => rfl)

theorem foldl_applyMilestoneUpdate (ups : List TimeUpdate) (rows : List Milestone) :
    ups.foldl applyMilestoneUpdate rows
      = rows.map (fun r => milestoneAfterUpdates r ups) := by
  induction ups generalizing rows with
  | nil => simp [milestoneAfterUpdates]
  | cons u ups ih =>
    simp only [List.foldl_cons, ih, applyMilestoneUpdate, List.map_map]
    exact List.map_congr_left (fun r _ => rfl)

theorem entryAfterUpdates_of_disjoint (r : TimeEntry) (ups : List TimeUpdate)
    (h : ∀ u ∈ ups, u.id ≠ r.ID) : entryAfterUpdates r ups = r := by
  induction ups with
  | nil => rfl
  | cons u ups ih =>
    have hu : u.id ≠ r.ID := h u (List.mem_cons_self u ups)
    have : (if r.ID = u.id then
        { r with StartTime := u.startTime, EndTime := u.endTime } else r) = r := by
      rw [if_neg (fun hc => hu hc.symm)]
    simpa [entryAfterUpdates, this] using
      ih (fun v hv => h v (List.mem_cons_of_mem u hv))

theorem milestoneAfterUpdates_of_disjoint (r : Milestone) (ups : List TimeUpdate)
    (h : ∀ u ∈ ups, u.id ≠ r.ID) : milestoneAfterUpdates r ups = r := by
  induction ups with
  | nil => rfl
  | cons u ups ih =>
    have hu : u.id ≠ r.ID := h u (List.mem_cons_self u ups)
    have : (if r.ID = u.id then
        { r with StartTime := u.startTime, EndTime := u.endTime } else r) = r := by
      rw [if_neg (fun hc => hu hc.symm)]
    simpa [milestoneAfterUpdates, this] using
      ih (fun v hv => h v (List.mem_cons_of_mem u hv))

theorem collectTimeUpdates_id_mem {u : TimeUpdate}
    {rows : List (Int × GoTime × Option GoTime)}
    (h : u ∈ collectTimeUpdates rows) : u.id ∈ rows.map (fun r => r.1) := by
  rcases List.mem_filterMap.mp h with ⟨r, hr, heq⟩
  by_cases hc : timesNeedUpdate r.2.1 r.2.2 = true
  · rw [if_pos hc] at heq
    cases heq
    exact List.mem_map.mpr ⟨r, hr, rfl⟩
  · rw [if_neg hc] at heq
    cases heq

theorem entryAfterUpdates_cons (r : TimeEntry) (u : TimeUpdate) (ups : List TimeUpdate) :
    entryAfterUpdates r (u :: ups)
      = entryAfterUpdates
          (if r.ID = u.id then { r with StartTime := u.startTime, EndTime := u.endTime }
           else r) ups := rfl

theorem milestoneAfterUpdates_cons (r : Milestone) (u : TimeUpdate) (ups : List TimeUpdate) :
    milestoneAfterUpdates r (u :: ups)
      = milestoneAfterUpdates
          (if r.ID = u.id then { r with StartTime := u.startTime, EndTime := u.endTime }
           else r) ups := rfl

/-- Projecting the scanned triples back to ids gives the row ids. -/
theorem entryTriples_ids (rows : List TimeEntry) :
    ((rows.map (fun r => (r.ID, r.StartTime, r.EndTime))).map (fun r => r.1))
      = rows.map (fun r => r.ID) := by
  rw [List.map_map]
  rfl

theorem milestoneTriples_ids (rows : List Milestone) :
    ((rows.map (fun r => (r.ID, r.StartTime, r.EndTime))).map (fun r => r.1))
      = rows.map (fun r => r.ID) := by
  rw [List.map_map]
  rfl

/-- With pairwise-distinct ids (the table's `PRIMARY KEY`), the
scan-then-update pass of the migration rewrites the entries table
row-wise. -/
theorem migrateTimeEntriesTableToUTC_eq_map (rows : List TimeEntry)
    (h : (rows.map (fun r => r.ID)).Nodup) :
    migrateTimeEntriesTableToUTC rows = rows.map migrateEntryRow := by
  unfold migrateTimeEntriesTableToUTC
  rw [foldl_applyEntryUpdate]
  revert h
  induction rows with
  | nil => intro _; rfl
  | cons a tl ih =>
    intro h
    rw [List.map_cons, List.nodup_cons] at h
    obtain ⟨ha, htl⟩ := h
    have hC : ∀ u ∈ collectTimeUpdates
        (tl.map (fun r => (r.ID, r.StartTime, r.EndTime))), u.id ≠ a.ID := by
      intro u hu hc
      have := collectTimeUpdates_id_mem hu
      rw [entryTriples_ids] at this
      exact ha (hc ▸ this)
    have hcollect : collectTimeUpdates
        ((a.ID, a.StartTime, a.EndTime) :: tl.map (fun r => (r.ID, r.StartTime, r.EndTime)))
        = (if timesNeedUpdate a.StartTime a.EndTime then
            [(⟨a.ID, normalizeTime a.StartTime, a.EndTime.map normalizeTime⟩ : TimeUpdate)]
          else []) ++ collectTimeUpdates (tl.map (fun r => (r.ID, r.StartTime, r.EndTime))) := by
      by_cases hn : timesNeedUpdate a.StartTime a.EndTime = true
      · simp [collectTimeUpdates, List.filterMap_cons, hn]
      · simp [collectTimeUpdates, List.filterMap_cons,
          Bool.eq_false_iff.mpr hn]
    simp only [List.map_cons, hcollect, List.cons.injEq]
    by_cases hn : timesNeedUpdate a.StartTime a.EndTime = true
    · rw [if_pos hn]
      constructor
      · rw [List.singleton_append, entryAfterUpdates_cons, if_pos rfl]
        refine (entryAfterUpdates_of_disjoint _ _ ?_).trans ?_
        · exact fun u hu => hC u hu
        · simp [migrateEntryRow, hn]
      · rw [← ih htl]
        refine List.map_congr_left (fun r hr => ?_)
        rw [List.singleton_append, entryAfterUpdates_cons, if_neg ?_]
        intro hc
        have hr' : r.ID ∈ tl.map (fun r => r.ID) := List.mem_map.mpr ⟨r, hr, rfl⟩
        rw [hc] at hr'
        exact ha hr'
    · rw [if_neg hn, List.nil_append]
      constructor
      · rw [entryAfterUpdates_of_disjoint _ _ hC]
        simp [migrateEntryRow, Bool.eq_false_iff.mpr hn]
      · exact ih htl

/-- Same statement for the milestones table. -/
theorem migrateMilestonesTableToUTC_eq_map (rows : List Milestone)
    (h : (rows.map (fun r => r.ID)).Nodup) :
    migrateMilestonesTableToUTC rows = rows.map migrateMilestoneRow := by
  unfold migrateMilestonesTableToUTC
  rw [foldl_applyMilestoneUpdate]
  revert h
  induction rows with
  | nil => intro _; rfl
  | cons a tl ih =>
    intro h
    rw [List.map_cons, List.nodup_cons] at h
    obtain ⟨ha, htl⟩ := h
    have hC : ∀ u ∈ collectTimeUpdates
        (tl.map (fun r => (r.ID, r.StartTime, r.EndTime))), u.id ≠ a.ID := by
      intro u hu hc
      have := collectTimeUpdates_id_mem hu
      rw [milestoneTriples_ids] at this
      exact ha (hc ▸ this)
    have hcollect : collectTimeUpdates
        ((a.ID, a.StartTime, a.EndTime) :: tl.map (fun r => (r.ID, r.StartTime, r.EndTime)))
        = (if timesNeedUpdate a.StartTime a.EndTime then
            [(⟨a.ID, normalizeTime a.StartTime, a.EndTime.map normalizeTime⟩ : TimeUpdate)]
          else []) ++ collectTimeUpdates (tl.map (fun r => (r.ID, r.StartTime, r.EndTime))) := by
      by_cases hn : timesNeedUpdate a.StartTime a.EndTime = true
      · simp [collectTimeUpdates, List.filterMap_cons, hn]
      · simp [collectTimeUpdates, List.filterMap_cons,
          Bool.eq_false_iff.mpr hn]
    simp only [List.map_cons, hcollect, List.cons.injEq]
    by_cases hn : timesNeedUpdate a.StartTime a.EndTime = true
    · rw [if_pos hn]
      constructor
      · rw [List.singleton_append, milestoneAfterUpdates_cons, if_pos rfl]
        refine (milestoneAfterUpdates_of_disjoint _ _ ?_).trans ?_
        · exact fun u hu => hC u hu
        · simp [migrateMilestoneRow, hn]
      · rw [← ih htl]
        refine List.map_congr_left (fun r hr => ?_)
        rw [List.singleton_append, milestoneAfterUpdates_cons, if_neg ?_]
        intro hc
        have hr' : r.ID ∈ tl.map (fun r => r.ID) := List.mem_map.mpr ⟨r, hr, rfl⟩
        rw [hc] at hr'
        exact ha hr'
    · rw [if_neg hn, List.nil_append]
      constructor
      · rw [milestoneAfterUpdates_of_disjoint _ _ hC]
        simp [migrateMilestoneRow, Bool.eq_false_iff.mpr hn]
      · exact ih htl

theorem normalizeTime_eq_fun :
    normalizeTime = fun t : GoTime => (⟨t.instant, Loc.utc⟩ : GoTime) :=
  funext normalizeTime_eq

/-- The migration's row conversion in closed form: zone set to UTC,
instant kept, null end kept null, other columns untouched. -/
theorem migrateEntryRow_eq (e : TimeEntry) :
    migrateEntryRow e
      = { e with StartTime := ⟨e.StartTime.instant, Loc.utc⟩,
                 EndTime := e.EndTime.map (fun t => ⟨t.instant, Loc.utc⟩) } := by
  unfold migrateEntryRow
  by_cases hn : timesNeedUpdate e.StartTime e.EndTime = true
  · rw [if_pos hn, normalizeTime_eq_fun]
  · rw [if_neg hn]
    obtain ⟨hs, he⟩ := (timesNeedUpdate_eq_false_iff _ _).mp (Bool.eq_false_iff.mpr hn)
    cases e with
    | mk id pn st et d hr mn =>
      cases st with
      | mk i l =>
        simp only at hs
        subst hs
        cases et with
        | none => simp
        | some t =>
          cases t with
          | mk ti tl =>
            have : tl = Loc.utc := he ⟨ti, tl⟩ rfl
            subst this
            simp

theorem migrateMilestoneRow_eq (m : Milestone) :
    migrateMilestoneRow m
      = { m with StartTime := ⟨m.StartTime.instant, Loc.utc⟩,
                 EndTime := m.EndTime.map (fun t => ⟨t.instant, Loc.utc⟩) } := by
  unfold migrateMilestoneRow
  by_cases hn : timesNeedUpdate m.StartTime m.EndTime = true
  · rw [if_pos hn, normalizeTime_eq_fun]
  · rw [if_neg hn]
    obtain ⟨hs, he⟩ := (timesNeedUpdate_eq_false_iff _ _).mp (Bool.eq_false_iff.mpr hn)
    cases m with
    | mk id pn nm st et =>
      cases st with
      | mk i l =>
        simp only at hs
        subst hs
        cases et with
        | none => simp
        | some t =>
          cases t with
          | mk ti tl =>
            have : tl = Loc.utc := he ⟨ti, tl⟩ rfl
            subst this
            simp

/-- A row whose timestamps are already all UTC is left untouched by the
migration pass. -/
theorem migrateEntryRow_of_utc (e : TimeEntry)
    (h : e.StartTime.loc = Loc.utc ∧ ∀ t, e.EndTime = some t → t.loc = Loc.utc) :
    migrateEntryRow e = e := by
  have hf : timesNeedUpdate e.StartTime e.EndTime = false :=
    (timesNeedUpdate_eq_false_iff _ _).mpr h
  simp [migrateEntryRow, hf]

theorem migrateMilestoneRow_of_utc (m : Milestone)
    (h : m.StartTime.loc = Loc.utc ∧ ∀ t, m.EndTime = some t → t.loc = Loc.utc) :
    migrateMilestoneRow m = m := by
  have hf : timesNeedUpdate m.StartTime m.EndTime = false :=
    (timesNeedUpdate_eq_false_iff _ _).mpr h
  simp [migrateMilestoneRow, hf]

/-- C1: For every store on which the UTC migration has not yet been
marked complete (and whose tables satisfy the schema's primary-key
uniqueness), after `migrateTimestampsToUTC` succeeds every start and
end timestamp stored in the entries and milestones tables has its zone
component equal to UTC while representing the same instant as before;
rows whose timestamps were already in UTC are left unchanged; and every
null end timestamp remains null. -/
theorem utc_migration_normalizes (db : DB) (now : GoTime)
    (hnotrun : hasMigrationRun Migration001_UTCTimestamps db = false)
    (hids : (db.entries.map (fun r => r.ID)).Nodup)
    (hmids : (db.milestones.map (fun r => r.ID)).Nodup) :
    ∃ db', migrateTimestampsToUTCWith TxOracle.allOk now db = (Except.ok (), db')
      ∧ db'.entries = db.entries.map migrateEntryRow
      ∧ db'.milestones = db.milestones.map migrateMilestoneRow
      ∧ (∀ e ∈ db.entries,
            (migrateEntryRow e).StartTime = ⟨e.StartTime.instant, Loc.utc⟩
          ∧ (migrateEntryRow e).EndTime
              = e.EndTime.map (fun t => ⟨t.instant, Loc.utc⟩)
          ∧ (migrateEntryRow e).ID = e.ID
          ∧ (migrateEntryRow e).ProjectName = e.ProjectName
          ∧ (migrateEntryRow e).Description = e.Description
          ∧ (migrateEntryRow e).HourlyRate = e.HourlyRate
          ∧ (migrateEntryRow e).MilestoneName = e.MilestoneName
          ∧ (e.EndTime = none → (migrateEntryRow e).EndTime = none)
          ∧ ((e.StartTime.loc = Loc.utc ∧ ∀ t, e.EndTime = some t → t.loc = Loc.utc) →
              migrateEntryRow e = e))
      ∧ (∀ m ∈ db.milestones,
            (migrateMilestoneRow m).StartTime = ⟨m.StartTime.instant, Loc.utc⟩
          ∧ (migrateMilestoneRow m).EndTime
              = m.EndTime.map (fun t => ⟨t.instant, Loc.utc⟩)
          ∧ (migrateMilestoneRow m).ID = m.ID
          ∧ (migrateMilestoneRow m).ProjectName = m.ProjectName
          ∧ (migrateMilestoneRow m).Name = m.Name
          ∧ (m.EndTime = none → (migrateMilestoneRow m).EndTime = none)
          ∧ ((m.StartTime.loc = Loc.utc ∧ ∀ t, m.EndTime = some t → t.loc = Loc.utc) →
              migrateMilestoneRow m = m)) := by
  refine ⟨migratedDB now db, ?_, ?_, ?_, ?_, ?_⟩
  · simp [migrateTimestampsToUTCWith, hnotrun, TxOracle.allOk]
  · show migrateTimeEntriesTableToUTC db.entries = _
    exact migrateTimeEntriesTableToUTC_eq_map _ hids
  · show migrateMilestonesTableToUTC db.milestones = _
    exact migrateMilestonesTableToUTC_eq_map _ hmids
  · intro e _
    refine ⟨?_, ?_, ?_, ?_, ?_, ?_, ?_, ?_, migrateEntryRow_of_utc e⟩
    · rw [migrateEntryRow_eq]
    · rw [migrateEntryRow_eq]
    · rw [migrateEntryRow_eq]
    · rw [migrateEntryRow_eq]
    · rw [migrateEntryRow_eq]
    · rw [migrateEntryRow_eq]
    · rw [migrateEntryRow_eq]
    · intro h0
      rw [migrateEntryRow_eq]
      simp [h0]
  · intro m _
    refine ⟨?_, ?_, ?_, ?_, ?_, ?_, migrateMilestoneRow_of_utc m⟩
    · rw [migrateMilestoneRow_eq]
    · rw [migrateMilestoneRow_eq]
    · rw [migrateMilestoneRow_eq]
    · rw [migrateMilestoneRow_eq]
    · rw [migrateMilestoneRow_eq]
    · intro h0
      rw [migrateMilestoneRow_eq]
      simp [h0]

/-- Witness for C1: a store holding one local-offset entry (running)
and one milestone, migration not yet recorded. -/
theorem utc_migration_normalizes_witness :
    ∃ db', migrateTimestampsToUTCWith TxOracle.allOk ⟨50, Loc.utc⟩
        ⟨[⟨1, "p", ⟨10, Loc.fixedZone (-18000)⟩, none, "d", none, none⟩],
         [⟨1, "p", "Sprint 1", ⟨20, Loc.fixedZone 3600⟩, some ⟨30, Loc.utc⟩⟩],
         [], 2⟩ = (Except.ok (), db')
      ∧ db'.entries
          = [⟨1, "p", ⟨10, Loc.fixedZone (-18000)⟩, none, "d", none, none⟩].map
              migrateEntryRow
      ∧ db'.milestones
          = [⟨1, "p", "Sprint 1", ⟨20, Loc.fixedZone 3600⟩, some ⟨30, Loc.utc⟩⟩].map
              migrateMilestoneRow := by
  obtain ⟨db', h1, h2, h3, _⟩ :=
    utc_migration_normalizes
      ⟨[⟨1, "p", ⟨10, Loc.fixedZone (-18000)⟩, none, "d", none, none⟩],
       [⟨1, "p", "Sprint 1", ⟨20, Loc.fixedZone 3600⟩, some ⟨30, Loc.utc⟩⟩],
       [], 2⟩ ⟨50, Loc.utc⟩ rfl (by decide) (by decide)
  exact ⟨db', h1, h2, h3⟩

/-- After the completion marker is upserted, the ledger lookup finds
it. -/
theorem find?_map_upsert (s : List SettingRow) (key value : String) (now : GoTime)
    (h : s.any (fun r => r.key == key) = true) :
    (s.map (fun r => if r.key == key then (⟨key, value, now⟩ : SettingRow) else r)).find?
      (fun r => r.key == key) = some ⟨key, value, now⟩ := by
  induction s with
  | nil => cases h
  | cons a tl ih =>
    by_cases ha : (a.key == key) = true
    · rw [List.map_cons, if_pos ha]
      exact List.find?_cons_of_pos _ (by simp)
    · rw [List.map_cons, if_neg ha]
      rw [List.find?_cons_of_neg _ (by simpa using ha)]
      refine ih ?_
      rw [List.any_cons] at h
      simpa [Bool.eq_false_iff.mpr ha] using h

theorem find?_settingsUpsert (s : List SettingRow) (key value : String) (now : GoTime) :
    (settingsUpsert s key value now).find? (fun r => r.key == key)
      = some ⟨key, value, now⟩ := by
  unfold settingsUpsert
  by_cases h : s.any (fun r => r.key == key) = true
  · rw [if_pos h]
    exact find?_map_upsert s key value now h
  · rw [if_neg h, List.find?_append]
    have hnone : s.find? (fun r => r.key == key) = none :=
      List.find?_eq_none.mpr (fun x hx hpx =>
        h (List.any_eq_true.mpr ⟨x, hx, hpx⟩))
    rw [hnone]
    simp [List.find?_cons_of_pos]

/-- A successful full run leaves the completion marker in the ledger. -/
theorem hasMigrationRun_migratedDB (db : DB) (now : GoTime) :
    hasMigrationRun Migration001_UTCTimestamps (migratedDB now db) = true := by
  unfold hasMigrationRun migratedDB
  simp only [find?_settingsUpsert]
  simp

/-- A run that reports success either short-circuited on the marker or
performed the full migration. -/
theorem migrateWith_ok_cases (o : TxOracle) (now : GoTime) (db : DB)
    (h : (migrateTimestampsToUTCWith o now db).1 = Except.ok ()) :
    (hasMigrationRun Migration001_UTCTimestamps db = true
      ∧ migrateTimestampsToUTCWith o now db = (Except.ok (), db))
    ∨ (hasMigrationRun Migration001_UTCTimestamps db = false
      ∧ migrateTimestampsToUTCWith o now db = (Except.ok (), migratedDB now db)) := by
  unfold migrateTimestampsToUTCWith at h ⊢
  by_cases h0 : hasMigrationRun Migration001_UTCTimestamps db = true
  · left
    exact ⟨h0, by rw [if_pos h0]⟩
  · right
    refine ⟨Bool.eq_false_iff.mpr h0, ?_⟩
    rw [if_neg h0] at h ⊢
    by_cases hb : (!o.beginOk) = true
    · rw [if_pos hb] at h
      cases h
    · rw [if_neg hb] at h ⊢
      by_cases he : (!o.entriesOk) = true
      · rw [if_pos he] at h
        cases h
      · rw [if_neg he] at h ⊢
        by_cases hm : (!o.milestonesOk) = true
        · rw [if_pos hm] at h
          cases h
        · rw [if_neg hm] at h ⊢
          by_cases hk : (!o.markOk) = true
          · rw [if_pos hk] at h
            cases h
          · rw [if_neg hk] at h ⊢
            by_cases hc : (!o.commitOk) = true
            · rw [if_pos hc] at h
              cases h
            · rw [if_neg hc]

/-- C2: if the migration ledger contains the "completed" marker under
the UTC-migration key, `migrateTimestampsToUTC` returns success without
scanning or rewriting any row (the result is independent of every
transaction step, including failing ones) and leaves the store
untouched; consequently a second run after any successful run leaves
every stored value identical (idempotence). -/
theorem utc_migration_idempotent (db : DB) :
    (hasMigrationRun Migration001_UTCTimestamps db = true →
        ∀ o now, migrateTimestampsToUTCWith o now db = (Except.ok (), db))
  ∧ (∀ o now, (migrateTimestampsToUTCWith o now db).1 = Except.ok () →
      ∀ o' now', migrateTimestampsToUTCWith o' now'
          ((migrateTimestampsToUTCWith o now db).2)
        = (Except.ok (), (migrateTimestampsToUTCWith o now db).2)) := by
  constructor
  · intro h o now
    unfold migrateTimestampsToUTCWith
    rw [if_pos h]
  · intro o now h o' now'
    rcases migrateWith_ok_cases o now db h with ⟨h0, heq⟩ | ⟨h0, heq⟩
    · rw [heq]
      show migrateTimestampsToUTCWith o' now' db = (Except.ok (), db)
      unfold migrateTimestampsToUTCWith
      rw [if_pos h0]
    · rw [heq]
      show migrateTimestampsToUTCWith o' now' (migratedDB now db)
        = (Except.ok (), migratedDB now db)
      unfold migrateTimestampsToUTCWith
      rw [if_pos (hasMigrationRun_migratedDB db now)]

/-- Witness for C2: a store whose ledger already records the migration;
even an oracle under which every transaction step would fail returns
success with the store untouched. -/
theorem utc_migration_idempotent_witness :
    migrateTimestampsToUTCWith ⟨false, false, false, false, false⟩ ⟨0, Loc.utc⟩
        ⟨[], [], [⟨"001_utc_timestamps", "completed", ⟨0, Loc.utc⟩⟩], 1⟩
      = (Except.ok (),
         ⟨[], [], [⟨"001_utc_timestamps", "completed", ⟨0, Loc.utc⟩⟩], 1⟩) :=
  (utc_migration_idempotent
      ⟨[], [], [⟨"001_utc_timestamps", "completed", ⟨0, Loc.utc⟩⟩], 1⟩).1
    (by decide) ⟨false, false, false, false, false⟩ ⟨0, Loc.utc⟩

/-- A run that reports an error left the store exactly as it was and
the ledger without the marker. -/
theorem migrateWith_error_elim (o : TxOracle) (now : GoTime) (db : DB) (e : String)
    (h : (migrateTimestampsToUTCWith o now db).1 = Except.error e) :
    migrateTimestampsToUTCWith o now db = (Except.error e, db)
    ∧ hasMigrationRun Migration001_UTCTimestamps db = false := by
  unfold migrateTimestampsToUTCWith at h ⊢
  by_cases h0 : hasMigrationRun Migration001_UTCTimestamps db = true
  · rw [if_pos h0] at h
    cases h
  · refine ⟨?_, Bool.eq_false_iff.mpr h0⟩
    rw [if_neg h0] at h ⊢
    by_cases hb : (!o.beginOk) = true
    · rw [if_pos hb] at h ⊢
      injection h with he
      rw [he]
    · rw [if_neg hb] at h ⊢
      by_cases hent : (!o.entriesOk) = true
      · rw [if_pos hent] at h ⊢
        injection h with he
        rw [he]
      · rw [if_neg hent] at h ⊢
        by_cases hm : (!o.milestonesOk) = true
        · rw [if_pos hm] at h ⊢
          injection h with he
          rw [he]
        · rw [if_neg hm] at h ⊢
          by_cases hk : (!o.markOk) = true
          · rw [if_pos hk] at h ⊢
            injection h with he
            rw [he]
          · rw [if_neg hk] at h ⊢
            by_cases hc : (!o.commitOk) = true
            · rw [if_pos hc] at h ⊢
              injection h with he
              rw [he]
            · rw [if_neg hc] at h
              cases h

/-- C3: if any step of the migration transaction fails, all rewrites
and the marker roll back (the store is observed unchanged), the failure
propagates as an error from the migration runner, the marker is absent,
and a later launch with working steps performs the migration in full. -/
theorem utc_migration_atomic (o : TxOracle) (now : GoTime) (db : DB) (e : String)
    (h : (migrateTimestampsToUTCWith o now db).1 = Except.error e) :
    (migrateTimestampsToUTCWith o now db).2 = db
  ∧ hasMigrationRun Migration001_UTCTimestamps db = false
  ∧ (runMigrationsWith o now db)
      = (Except.error ("timestamp UTC migration failed: " ++ e), db)
  ∧ (∀ now', migrateTimestampsToUTCWith TxOracle.allOk now' db
      = (Except.ok (), migratedDB now' db)) := by
  obtain ⟨heq, h0⟩ := migrateWith_error_elim o now db e h
  refine ⟨by rw [heq], h0, ?_, ?_⟩
  · unfold runMigrationsWith
    rw [heq]
  · intro now'
    unfold migrateTimestampsToUTCWith
    rw [if_neg (by simp [h0])]
    simp [TxOracle.allOk]

/-- Witness for C3: the transaction begin fails on a fresh store with
one local-zone entry; the store is unchanged, the error propagates, and
the next launch migrates in full. -/
theorem utc_migration_atomic_witness :
    (migrateTimestampsToUTCWith ⟨false, true, true, true, true⟩ ⟨0, Loc.utc⟩
        ⟨[⟨1, "p", ⟨10, Loc.fixedZone 3600⟩, none, "", none, none⟩], [], [], 1⟩).2
      = ⟨[⟨1, "p", ⟨10, Loc.fixedZone 3600⟩, none, "", none, none⟩], [], [], 1⟩
  ∧ hasMigrationRun Migration001_UTCTimestamps
      ⟨[⟨1, "p", ⟨10, Loc.fixedZone 3600⟩, none, "", none, none⟩], [], [], 1⟩ = false := by
  obtain ⟨h1, h2, _, _⟩ :=
    utc_migration_atomic ⟨false, true, true, true, true⟩ ⟨0, Loc.utc⟩
      ⟨[⟨1, "p", ⟨10, Loc.fixedZone 3600⟩, none, "", none, none⟩], [], [], 1⟩
      "failed to begin transaction" rfl
  exact ⟨h1, h2⟩

/-! ## Single-row lookups and queries -/

/-- C4 counterexample: `GetEntry` is one of the claim's single-row
lookups, yet on a store with no matching row it reports an error, not a
distinguishable absent result. -/
theorem single_row_lookup_counterexample :
    GetEntry ⟨[], [], [], 1⟩ 1
      = Except.error "failed to get entry: sql: no rows in result set" := rfl

/-- C4 (amended): every listed single-row lookup except `GetEntry`
returns a distinguishable absent result and not an error when no
matching row exists; `GetEntry` instead fails with an error on a
missing id. -/
theorem single_row_lookups_absent (db : DB) (id mid : Int) (p n : String) :
    ((∀ e ∈ db.entries, ¬ e.ID = id) →
        GetEntry db id
          = Except.error "failed to get entry: sql: no rows in result set")
  ∧ ((∀ e ∈ db.entries, e.EndTime ≠ none) → GetRunningEntry db = Except.ok none)
  ∧ ((∀ e ∈ db.entries, e.EndTime = none) → GetLastStoppedEntry db = Except.ok none)
  ∧ ((∀ m ∈ db.milestones, ¬ m.ID = mid) → GetMilestone db mid = Except.ok none)
  ∧ ((∀ m ∈ db.milestones, ¬ (m.ProjectName = p ∧ m.Name = n)) →
        GetMilestoneByName db p n = Except.ok none)
  ∧ ((∀ m ∈ db.milestones, ¬ (m.ProjectName = p ∧ m.EndTime = none)) →
        GetActiveMilestoneForProject db p = Except.ok none) := by
  refine ⟨?_, ?_, ?_, ?_, ?_, ?_⟩
  · intro h
    unfold GetEntry
    have hn : db.entries.find? (fun e => e.ID = id) = none :=
      List.find?_eq_none.mpr (fun x hx => by simpa using h x hx)
    rw [hn]
  · intro h
    unfold GetRunningEntry
    have hfil : db.entries.filter (fun e => e.EndTime.isNone) = [] :=
      List.filter_eq_nil_iff.mpr (fun e he => by
        simpa [Option.isNone_iff_eq_none] using h e he)
    rw [hfil, List.mergeSort_nil]
    rfl
  · intro h
    unfold GetLastStoppedEntry
    have hfil : db.entries.filter (fun e => e.EndTime.isSome) = [] :=
      List.filter_eq_nil_iff.mpr (fun e he => by simp [h e he])
    rw [hfil, List.mergeSort_nil]
    rfl
  · intro h
    unfold GetMilestone
    have hn : db.milestones.find? (fun m => m.ID = mid) = none :=
      List.find?_eq_none.mpr (fun x hx => by simpa using h x hx)
    rw [hn]
  · intro h
    unfold GetMilestoneByName
    have hn : db.milestones.find? (fun m => m.ProjectName = p ∧ m.Name = n) = none :=
      List.find?_eq_none.mpr (fun x hx => by simpa using h x hx)
    rw [hn]
  · intro h
    unfold GetActiveMilestoneForProject
    have hfil : db.milestones.filter
        (fun m => m.ProjectName = p ∧ m.EndTime.isNone) = [] :=
      List.filter_eq_nil_iff.mpr (fun m hm => by
        simpa [Option.isNone_iff_eq_none] using h m hm)
    rw [hfil, List.mergeSort_nil]
    rfl

/-- Witness for C4 (amended): all six lookups on the empty store. -/
theorem single_row_lookups_absent_witness :
    GetEntry ⟨[], [], [], 1⟩ 7
        = Except.error "failed to get entry: sql: no rows in result set"
  ∧ GetRunningEntry ⟨[], [], [], 1⟩ = Except.ok none
  ∧ GetLastStoppedEntry ⟨[], [], [], 1⟩ = Except.ok none
  ∧ GetMilestone ⟨[], [], [], 1⟩ 7 = Except.ok none
  ∧ GetMilestoneByName ⟨[], [], [], 1⟩ "p" "m" = Except.ok none
  ∧ GetActiveMilestoneForProject ⟨[], [], [], 1⟩ "p" = Except.ok none := by
  obtain ⟨h1, h2, h3, h4, h5, h6⟩ :=
    single_row_lookups_absent ⟨[], [], [], 1⟩ 7 7 "p" "m"
  exact ⟨h1 (by simp), h2 (by simp), h3 (by simp), h4 (by simp),
    h5 (by simp), h6 (by simp)⟩

theorem entryStartDesc_trans (a b c : TimeEntry) (h1 : entryStartDesc a b = true)
    (h2 : entryStartDesc b c = true) : entryStartDesc a c = true := by
  simp only [entryStartDesc, decide_eq_true_eq] at *
  omega

theorem entryStartDesc_total (a b : TimeEntry) :
    (entryStartDesc a b || entryStartDesc b a) = true := by
  simp only [entryStartDesc, Bool.or_eq_true, decide_eq_true_eq]
  omega

/-- C5: on a store with zero null-end entries `GetRunningEntry` returns
absent and no error; on a store with at least one null-end entry it
returns a null-end entry whose start time is greatest among the
null-end entries (also when several null-end rows exist). -/
theorem getRunningEntry_spec (db : DB) :
    ((∀ e ∈ db.entries, e.EndTime ≠ none) → GetRunningEntry db = Except.ok none)
  ∧ (∀ r ∈ db.entries, r.EndTime = none →
      ∃ e, GetRunningEntry db = Except.ok (some e)
        ∧ e ∈ db.entries ∧ e.EndTime = none
        ∧ ∀ x ∈ db.entries, x.EndTime = none →
            x.StartTime.instant ≤ e.StartTime.instant) := by
  constructor
  · intro h
    unfold GetRunningEntry
    have hfil : db.entries.filter (fun e => e.EndTime.isNone) = [] :=
      List.filter_eq_nil_iff.mpr (fun e he => by
        simpa [Option.isNone_iff_eq_none] using h e he)
    rw [hfil, List.mergeSort_nil]
    rfl
  · intro r hr hrnone
    have hmemfil : r ∈ db.entries.filter (fun e => e.EndTime.isNone) :=
      List.mem_filter.mpr ⟨hr, by simp [hrnone]⟩
    have hperm := List.mergeSort_perm
      (db.entries.filter (fun e => e.EndTime.isNone)) entryStartDesc
    have hmemsort : r ∈ (db.entries.filter (fun e => e.EndTime.isNone)).mergeSort
        entryStartDesc := hperm.mem_iff.mpr hmemfil
    have hsorted := List.sorted_mergeSort entryStartDesc_trans entryStartDesc_total
      (db.entries.filter (fun e => e.EndTime.isNone))
    cases hms : (db.entries.filter (fun e => e.EndTime.isNone)).mergeSort
        entryStartDesc with
    | nil =>
      rw [hms] at hmemsort
      cases hmemsort
    | cons e rest =>
      rw [hms] at hperm hsorted
      refine ⟨e, ?_, ?_, ?_, ?_⟩
      · unfold GetRunningEntry
        rw [hms]
        rfl
      · have : e ∈ db.entries.filter (fun x => x.EndTime.isNone) :=
          hperm.mem_iff.mp (List.mem_cons_self e rest)
        exact (List.mem_filter.mp this).1
      · have : e ∈ db.entries.filter (fun x => x.EndTime.isNone) :=
          hperm.mem_iff.mp (List.mem_cons_self e rest)
        have := (List.mem_filter.mp this).2
        simpa [Option.isNone_iff_eq_none] using this
      · intro x hx hxnone
        have hxfil : x ∈ db.entries.filter (fun e => e.EndTime.isNone) :=
          List.mem_filter.mpr ⟨hx, by simp [hxnone]⟩
        have hxsort : x ∈ e :: rest := hperm.mem_iff.mpr hxfil
        rcases List.mem_cons.mp hxsort with hxe | hxr
        · rw [hxe]
        · have := (List.pairwise_cons.mp hsorted).1 x hxr
          simpa [entryStartDesc] using this

/-- Witness for C5: a store with two running rows and one stopped row;
`GetRunningEntry` returns a running row with the greatest start. -/
theorem getRunningEntry_spec_witness :
    ∃ e, GetRunningEntry
        ⟨[⟨1, "p", ⟨10, Loc.utc⟩, none, "", none, none⟩,
          ⟨2, "p", ⟨30, Loc.utc⟩, some ⟨40, Loc.utc⟩, "", none, none⟩,
          ⟨3, "p", ⟨20, Loc.utc⟩, none, "", none, none⟩], [], [], 1⟩
        = Except.ok (some e)
      ∧ e ∈ ([⟨1, "p", ⟨10, Loc.utc⟩, none, "", none, none⟩,
          ⟨2, "p", ⟨30, Loc.utc⟩, some ⟨40, Loc.utc⟩, "", none, none⟩,
          ⟨3, "p", ⟨20, Loc.utc⟩, none, "", none, none⟩] : List TimeEntry)
      ∧ e.EndTime = none
      ∧ ∀ x ∈ ([⟨1, "p", ⟨10, Loc.utc⟩, none, "", none, none⟩,
          ⟨2, "p", ⟨30, Loc.utc⟩, some ⟨40, Loc.utc⟩, "", none, none⟩,
          ⟨3, "p", ⟨20, Loc.utc⟩, none, "", none, none⟩] : List TimeEntry),
            x.EndTime = none → x.StartTime.instant ≤ e.StartTime.instant :=
  (getRunningEntry_spec
      ⟨[⟨1, "p", ⟨10, Loc.utc⟩, none, "", none, none⟩,
        ⟨2, "p", ⟨30, Loc.utc⟩, some ⟨40, Loc.utc⟩, "", none, none⟩,
        ⟨3, "p", ⟨20, Loc.utc⟩, none, "", none, none⟩], [], [], 1⟩).2
    ⟨1, "p", ⟨10, Loc.utc⟩, none, "", none, none⟩ (by decide) rfl

/-- C10: `GetEntries` with a non-positive limit returns all stored
entries ordered by start time descending; with a positive limit it
returns the first `limit` of that ordering (at most `limit` rows, most
recent first). -/
theorem getEntries_limit_spec (db : DB) (limit : Int) :
    (limit ≤ 0 →
        GetEntries db limit = db.entries.mergeSort entryStartDesc
      ∧ (GetEntries db limit).Perm db.entries
      ∧ (GetEntries db limit).Pairwise
          (fun a b => b.StartTime.instant ≤ a.StartTime.instant))
  ∧ (0 < limit →
        GetEntries db limit = (db.entries.mergeSort entryStartDesc).take limit.toNat
      ∧ (GetEntries db limit).length ≤ limit.toNat
      ∧ (GetEntries db limit).Pairwise
          (fun a b => b.StartTime.instant ≤ a.StartTime.instant)) := by
  have hsorted : (db.entries.mergeSort entryStartDesc).Pairwise
      (fun a b => b.StartTime.instant ≤ a.StartTime.instant) :=
    (List.sorted_mergeSort entryStartDesc_trans entryStartDesc_total db.entries).imp
      (fun h => by simpa [entryStartDesc] using h)
  constructor
  · intro h
    have heq : GetEntries db limit = db.entries.mergeSort entryStartDesc := by
      unfold GetEntries
      rw [if_neg (by omega)]
    refine ⟨heq, ?_, ?_⟩
    · rw [heq]
      exact List.mergeSort_perm db.entries entryStartDesc
    · rw [heq]
      exact hsorted
  · intro h
    have heq : GetEntries db limit
        = (db.entries.mergeSort entryStartDesc).take limit.toNat := by
      unfold GetEntries
      rw [if_pos (by omega)]
    refine ⟨heq, ?_, ?_⟩
    · rw [heq, List.length_take]
      exact min_le_left _ _
    · rw [heq]
      exact hsorted.sublist (List.take_sublist _ _)

/-- Witness for C10: both limit regimes on a two-entry store. -/
theorem getEntries_limit_spec_witness :
    GetEntries ⟨[⟨1, "p", ⟨5, Loc.utc⟩, none, "", none, none⟩,
        ⟨2, "p", ⟨9, Loc.utc⟩, some ⟨11, Loc.utc⟩, "", none, none⟩], [], [], 1⟩ 0
      = ([⟨1, "p", ⟨5, Loc.utc⟩, none, "", none, none⟩,
          ⟨2, "p", ⟨9, Loc.utc⟩, some ⟨11, Loc.utc⟩, "", none, none⟩] :
            List TimeEntry).mergeSort entryStartDesc
  ∧ (GetEntries ⟨[⟨1, "p", ⟨5, Loc.utc⟩, none, "", none, none⟩,
        ⟨2, "p", ⟨9, Loc.utc⟩, some ⟨11, Loc.utc⟩, "", none, none⟩], [], [], 1⟩ 1).length
      ≤ (1 : Int).toNat :=
  ⟨((getEntries_limit_spec
      ⟨[⟨1, "p", ⟨5, Loc.utc⟩, none, "", none, none⟩,
        ⟨2, "p", ⟨9, Loc.utc⟩, some ⟨11, Loc.utc⟩, "", none, none⟩], [], [], 1⟩ 0).1
      (by decide)).1,
   ((getEntries_limit_spec
      ⟨[⟨1, "p", ⟨5, Loc.utc⟩, none, "", none, none⟩,
        ⟨2, "p", ⟨9, Loc.utc⟩, some ⟨11, Loc.utc⟩, "", none, none⟩], [], [], 1⟩ 1).2
      (by decide)).2.1⟩

/-- C8: creating a milestone whose (project, name) pair already exists
in the store fails with an error, leaves the existing row unchanged and
inserts nothing; the uniqueness is enforced by the storage layer's
schema constraint. -/
theorem createMilestone_duplicate (db : DB) (m : Milestone) (now : GoTime)
    (hm : m ∈ db.milestones) :
    (∃ msg, (CreateMilestone db m.ProjectName m.Name now).1 = Except.error msg)
  ∧ (CreateMilestone db m.ProjectName m.Name now).2 = db := by
  have hdup : db.milestones.any
      (fun x => x.ProjectName == m.ProjectName && x.Name == m.Name) = true :=
    List.any_eq_true.mpr ⟨m, hm, by simp⟩
  unfold CreateMilestone
  rw [if_pos hdup]
  exact ⟨⟨_, rfl⟩, rfl⟩

/-- Witness for C8: inserting ("p", "Sprint 1") twice. -/
theorem createMilestone_duplicate_witness :
    (∃ msg, (CreateMilestone
        ⟨[], [⟨1, "p", "Sprint 1", ⟨0, Loc.utc⟩, none⟩], [], 2⟩
        "p" "Sprint 1" ⟨5, Loc.utc⟩).1 = Except.error msg)
  ∧ (CreateMilestone ⟨[], [⟨1, "p", "Sprint 1", ⟨0, Loc.utc⟩, none⟩], [], 2⟩
        "p" "Sprint 1" ⟨5, Loc.utc⟩).2
      = ⟨[], [⟨1, "p", "Sprint 1", ⟨0, Loc.utc⟩, none⟩], [], 2⟩ :=
  createMilestone_duplicate ⟨[], [⟨1, "p", "Sprint 1", ⟨0, Loc.utc⟩, none⟩], [], 2⟩
    ⟨1, "p", "Sprint 1", ⟨0, Loc.utc⟩, none⟩ ⟨5, Loc.utc⟩ (by decide)

/-- C9: for a completed entry `Duration()` is `end - start` and does
not depend on the instant of the call, and `RoundedHours()` is the
duration in hours rounded to two decimals, half away from zero. -/
theorem duration_completed_fixed (e : TimeEntry) (t : GoTime)
    (h : e.EndTime = some t) :
    (∀ now now', e.Duration now = e.Duration now')
  ∧ (∀ now, e.Duration now = t.instant - e.StartTime.instant)
  ∧ (∀ now, e.RoundedHours now
      = mathRound ((((t.instant : ℚ) - (e.StartTime.instant : ℚ)) / nsPerHour) * 100)
          / 100) := by
  refine ⟨?_, ?_, ?_⟩
  · intro now now'
    simp [TimeEntry.Duration, h]
  · intro now
    simp [TimeEntry.Duration, h]
  · intro now
    simp [TimeEntry.RoundedHours, TimeEntry.Duration, h]

/-- Witness for C9: a one-hour-and-a-half entry evaluated at two
distinct call instants. -/
theorem duration_completed_fixed_witness :
    TimeEntry.Duration
        ⟨1, "p", ⟨0, Loc.utc⟩, some ⟨5400000000000, Loc.utc⟩, "", none, none⟩ 99
      = TimeEntry.Duration
        ⟨1, "p", ⟨0, Loc.utc⟩, some ⟨5400000000000, Loc.utc⟩, "", none, none⟩ 123456
  ∧ TimeEntry.Duration
        ⟨1, "p", ⟨0, Loc.utc⟩, some ⟨5400000000000, Loc.utc⟩, "", none, none⟩ 99
      = 5400000000000 - 0
  ∧ TimeEntry.RoundedHours
        ⟨1, "p", ⟨0, Loc.utc⟩, some ⟨5400000000000, Loc.utc⟩, "", none, none⟩ 99
      = mathRound (((((5400000000000 : Int) : ℚ) - ((0 : Int) : ℚ)) / nsPerHour) * 100)
          / 100 := by
  obtain ⟨h1, h2, h3⟩ := duration_completed_fixed
    ⟨1, "p", ⟨0, Loc.utc⟩, some ⟨5400000000000, Loc.utc⟩, "", none, none⟩
    ⟨5400000000000, Loc.utc⟩ rfl
  exact ⟨h1 99 123456, h2 99, h3 99⟩

/-! ## Config resolver -/

/-- The message contains the substring `not found`. -/
def containsNotFound (s : String) : Prop :=
  ∃ a b, s = a ++ "not found" ++ b

/-- C6: an explicitly supplied non-empty project name is returned
verbatim when it exists in the global registry and rejected with a
"not found" error otherwise, in both cases independently of the
per-directory config file and of directory/git detection (no
fallback). -/
theorem explicit_project_resolution (p : String) (hp : p ≠ "")
    (reg : ProjectsRegistry) (fal fal' : Option ProjectConfig)
    (dp dp' : Except String String) :
    (reg.Exists p = true →
        DetectConfiguredProjectWithOverride p (Except.ok reg) fal dp = Except.ok p)
  ∧ (reg.Exists p = false →
      ∃ msg, DetectConfiguredProjectWithOverride p (Except.ok reg) fal dp
          = Except.error msg ∧ containsNotFound msg)
  ∧ DetectConfiguredProjectWithOverride p (Except.ok reg) fal dp
      = DetectConfiguredProjectWithOverride p (Except.ok reg) fal' dp' := by
  refine ⟨?_, ?_, ?_⟩
  · intro hex
    simp [DetectConfiguredProjectWithOverride, hp, hex]
  · intro hex
    refine ⟨"project '" ++ p ++ "' not found in global registry", ?_, ?_⟩
    · simp [DetectConfiguredProjectWithOverride, hp, hex]
    · refine ⟨"project '" ++ p ++ "' ", " in global registry", ?_⟩
      have hlit : ("' " : String) ++ ("not found" ++ " in global registry")
          = "' not found in global registry" := by decide
      simp only [String.append_assoc]
      rw [hlit]
  · simp [DetectConfiguredProjectWithOverride, hp]

/-- Witness for C6: registry containing "Alpha"; the explicit name
"alpha" resolves (case-insensitively) and "beta" is rejected with a
"not found" message, in both cases with a `.tmporc` candidate present
that is never consulted. -/
theorem explicit_project_resolution_witness :
    DetectConfiguredProjectWithOverride "alpha"
        (Except.ok ⟨[⟨"Alpha", some 50, "", "ex"⟩]⟩)
        (some ⟨"local", 1, "", ""⟩) (Except.ok "dir") = Except.ok "alpha"
  ∧ ∃ msg, DetectConfiguredProjectWithOverride "beta"
        (Except.ok ⟨[⟨"Alpha", some 50, "", "ex"⟩]⟩)
        (some ⟨"local", 1, "", ""⟩) (Except.ok "dir") = Except.error msg
      ∧ containsNotFound msg := by
  constructor
  · exact (explicit_project_resolution "alpha" (by decide)
      ⟨[⟨"Alpha", some 50, "", "ex"⟩]⟩ (some ⟨"local", 1, "", ""⟩) none
      (Except.ok "dir") (Except.error "e")).1 (by decide)
  · exact (explicit_project_resolution "beta" (by decide)
      ⟨[⟨"Alpha", some 50, "", "ex"⟩]⟩ (some ⟨"local", 1, "", ""⟩) none
      (Except.ok "dir") (Except.error "e")).2.1 (by decide)

/-- C7: `GetProjectConfig` precedence: a case-insensitive registry
match wins outright (even when the per-directory config declares the
same name); otherwise a per-directory config whose declared name
matches supplies its export path and its rate only when positive; and
when neither source matches the result is absent rate and empty path,
with no error possible. -/
theorem getProjectConfig_precedence (name : String) (reg : ProjectsRegistry)
    (fal : Option ProjectConfig) :
    (∀ rec, reg.GetProject name = Except.ok rec →
        GetProjectConfig name (Except.ok reg) fal = (rec.HourlyRate, rec.ExportPath))
  ∧ (reg.Exists name = false →
      ∀ cfg, fal = some cfg → cfg.ProjectName = name →
        GetProjectConfig name (Except.ok reg) fal
          = ((if cfg.HourlyRate > 0 then some cfg.HourlyRate else none),
             cfg.ExportPath))
  ∧ (reg.Exists name = false →
      (∀ cfg, fal = some cfg → ¬ cfg.ProjectName = name) →
        GetProjectConfig name (Except.ok reg) fal = (none, "")) := by
  refine ⟨?_, ?_, ?_⟩
  · intro rec hrec
    have hex : reg.Exists name = true := by
      unfold ProjectsRegistry.Exists
      rw [hrec]
    simp [GetProjectConfig, hex, hrec]
  · intro hex cfg hfal hname
    subst hfal
    simp [GetProjectConfig, hex, hname]
  · intro hex hno
    cases hfal : fal with
    | none => simp [GetProjectConfig, hex, hfal]
    | some cfg =>
      have hne := hno cfg hfal
      simp [GetProjectConfig, hex, hfal, hne]

/-- Witness for C7: the registry record for "Alpha" wins for the query
"ALPHA" even though the per-directory config declares the same name
with a different rate; for "beta" the per-directory record supplies the
export path but its zero rate means no rate; for "gamma" with no
source, both outputs are empty. -/
theorem getProjectConfig_precedence_witness :
    GetProjectConfig "ALPHA" (Except.ok ⟨[⟨"Alpha", some 50, "", "ex"⟩]⟩)
        (some ⟨"ALPHA", 99, "", "local"⟩) = (some 50, "ex")
  ∧ GetProjectConfig "beta" (Except.ok ⟨[⟨"Alpha", some 50, "", "ex"⟩]⟩)
        (some ⟨"beta", 0, "", "lp"⟩)
      = ((if (0 : ℚ) > 0 then some (0 : ℚ) else none), "lp")
  ∧ GetProjectConfig "gamma" (Except.ok ⟨[⟨"Alpha", some 50, "", "ex"⟩]⟩) none
      = (none, "") := by
  refine ⟨?_, ?_, ?_⟩
  · exact (getProjectConfig_precedence "ALPHA" ⟨[⟨"Alpha", some 50, "", "ex"⟩]⟩
      (some ⟨"ALPHA", 99, "", "local"⟩)).1 ⟨"Alpha", some 50, "", "ex"⟩ rfl
  · exact (getProjectConfig_precedence "beta" ⟨[⟨"Alpha", some 50, "", "ex"⟩]⟩
      (some ⟨"beta", 0, "", "lp"⟩)).2.1 (by decide) ⟨"beta", 0, "", "lp"⟩ rfl rfl
  · exact (getProjectConfig_precedence "gamma" ⟨[⟨"Alpha", some 50, "", "ex"⟩]⟩
      none).2.2 (by decide) (fun cfg hc => by cases hc)

end Tmpo
